import Mathlib

/-!
Shallow embedding and verification of the Postgres event-log storage
(`dagster_postgres/event_log/event_log.py`): the NOTIFY-payload codec used by
`PostgresEventLogStorage.store_event` and `watcher_thread`, the per-message
dispatch logic of `watcher_thread`, the subscriber registry and thread
lifecycle of `PostgresEventWatcher` (`watch_run`, `unwatch_run`, `close`), and
the asset-key upsert of `store_asset_event`.

Python strings are modelled as lists of Unicode code points (`List Nat`); the
payload delimiter `"_"` is code point 95.  Python `int` values that can be
negative (cursors) are modelled as `Int`, event ids assigned by the database
as `Nat`.  Callback objects are identified by an opaque tag (`Nat`), which is
exactly what Python's identity comparison `!=` on callables observes; callback
*behaviour* (whether invoking it raises) is supplied by an environment function
so that exception handling in the dispatch loop can be analysed.
-/

set_option maxHeartbeats 1000000

namespace EventLog

/-- A Python string as a list of Unicode code points. -/
abbrev PyStr := List Nat

/-- Run identifiers are Python strings. -/
abbrev RunId := PyStr

/-! ## Notification payload codec

`store_event` (event_log.py lines 148-151) sends `NOTIFY run_events` with the
payload `res[0] + "_" + str(res[1])`, i.e. the run id, one underscore, and the
decimal rendering of the freshly assigned event id.  `watcher_thread`
(line 280) decodes it with `run_id, index_str = notif.payload.split("_")`
followed by `index = int(index_str)` (line 285). -/

/-- Python `s.split("_")`: split a code-point list at every occurrence of the
underscore (code point 95).  Splitting the empty string yields `[[]]`, as in
Python where `"".split("_") == [""]`. -/
def splitOn95 : List Nat → List (List Nat)
  | [] => [[]]
  | c :: rest =>
    match splitOn95 rest with
    | [] => [[]]
    | h :: t => if c = 95 then [] :: h :: t else (c :: h) :: t

/-- Code point of a decimal digit (`"0"`..`"9"` are 48..57). -/
def isDigitCode (c : Nat) : Bool := decide (48 ≤ c) && decide (c ≤ 57)

/-- Numeric value of a list of decimal-digit code points, most significant
first (the accumulator pass performed by `int(...)` on a digit string). -/
def parseDec (s : List Nat) : Nat := s.foldl (fun a c => 10 * a + (c - 48)) 0

/-- Python `int(index_str)` restricted to the strings this program produces:
succeeds on a non-empty all-digit string, raises `ValueError` (here: `none`)
otherwise. -/
def pyIntOfChars (s : List Nat) : Option Nat :=
  if s.isEmpty then none
  else if s.all isDigitCode then some (parseDec s) else none

/-- Python `str(n)` for a non-negative integer: decimal digit code points,
most significant first. -/
def natDecChars (n : Nat) : List Nat :=
  if n = 0 then [48] else (Nat.digits 10 n).reverse.map fun d => d + 48

/-- The NOTIFY payload built by `store_event` (line 150):
`run_id + "_" + str(event_id)`. -/
def notifyPayload (run_id : RunId) (eid : Nat) : List Nat :=
  run_id ++ 95 :: natDecChars eid

/-- The decoding performed by `watcher_thread` (lines 280 and 285):
`run_id, index_str = payload.split("_")` (a two-element unpacking, which
raises unless the split has exactly two parts) followed by
`int(index_str)`. -/
def decodePayload (p : List Nat) : Option (RunId × Nat) :=
  match splitOn95 p with
  | [r, istr] =>
    match pyIntOfChars istr with
    | some i => some (r, i)
    | none => none
  | _ => none

theorem splitOn95_ne_nil (l : List Nat) : splitOn95 l ≠ [] := by
  cases l with
  | nil => simp [splitOn95]
  | cons c rest =>
    simp only [splitOn95]
    cases hsr : splitOn95 rest with
    | nil => simp
    | cons h t => by_cases hc : c = 95 <;> simp [hc]

theorem splitOn95_no_sep (l : List Nat) (hl : 95 ∉ l) : splitOn95 l = [l] := by
  induction l with
  | nil => rfl
  | cons c rest ih =>
    have hc : c ≠ 95 := fun h => hl (h ▸ List.mem_cons_self c rest)
    have hr : (95 : Nat) ∉ rest := fun h => hl (List.mem_cons_of_mem c h)
    simp [splitOn95, ih hr, hc]

theorem splitOn95_append (a b : List Nat) (ha : 95 ∉ a) :
    splitOn95 (a ++ 95 :: b) = a :: splitOn95 b := by
  induction a with
  | nil =>
    simp only [List.nil_append, splitOn95]
    cases hsb : splitOn95 b with
    | nil => exact absurd hsb (splitOn95_ne_nil b)
    | cons h t => simp
  | cons c a ih =>
    have hc : c ≠ 95 := fun h => ha (h ▸ List.mem_cons_self c a)
    have ha' : (95 : Nat) ∉ a := fun h => ha (List.mem_cons_of_mem c h)
    simp only [List.cons_append, splitOn95, List.append_eq]
    rw [ih ha']
    simp [hc]

theorem splitOn95_long_of_mem (l : List Nat) (h : 95 ∈ l) :
    2 ≤ (splitOn95 l).length := by
  induction l with
  | nil => cases h
  | cons c rest ih =>
    rcases List.mem_cons.mp h with h95 | hmem
    · cases hsr : splitOn95 rest with
      | nil => exact absurd hsr (splitOn95_ne_nil rest)
      | cons x t => simp [splitOn95, hsr, h95.symm]
    · cases hsr : splitOn95 rest with
      | nil => exact absurd hsr (splitOn95_ne_nil rest)
      | cons x t =>
        have hlen := ih hmem
        rw [hsr] at hlen
        simp only [List.length_cons] at hlen
        by_cases hc : c = 95 <;> simp [splitOn95, hsr, hc] <;> omega

theorem mem_natDecChars_digit (n c : Nat) (h : c ∈ natDecChars n) :
    48 ≤ c ∧ c ≤ 57 := by
  unfold natDecChars at h
  by_cases h0 : n = 0
  · simp [h0] at h
    omega
  · simp only [h0, if_false, List.mem_map, List.mem_reverse] at h
    obtain ⟨d, hd, hdc⟩ := h
    have hlt : d < 10 := Nat.digits_lt_base (by norm_num) hd
    omega

theorem natDecChars_ne_nil (n : Nat) : natDecChars n ≠ [] := by
  unfold natDecChars
  by_cases h0 : n = 0
  · simp [h0]
  · simp only [h0, if_false]
    have hdn : Nat.digits 10 n ≠ [] := Nat.digits_ne_nil_iff_ne_zero.mpr h0
    simp [hdn]

theorem not_95_mem_natDecChars (n : Nat) : (95 : Nat) ∉ natDecChars n := by
  intro h
  have := mem_natDecChars_digit n 95 h
  omega

theorem natDecChars_all_digits (n : Nat) :
    (natDecChars n).all isDigitCode = true := by
  rw [List.all_eq_true]
  intro c hc
  have := mem_natDecChars_digit n c hc
  simp only [isDigitCode, Bool.and_eq_true, decide_eq_true_eq]
  omega

theorem foldr_ofDigits (l : List Nat) :
    l.foldr (fun d a => 10 * a + d) 0 = Nat.ofDigits 10 l := by
  induction l with
  | nil => simp [Nat.ofDigits]
  | cons d t ih =>
    simp only [List.foldr_cons, ih, Nat.ofDigits_cons]
    ring

theorem parseDec_natDecChars (n : Nat) : parseDec (natDecChars n) = n := by
  by_cases h0 : n = 0
  · simp [h0, natDecChars, parseDec]
  · unfold natDecChars parseDec
    simp only [h0, if_false]
    rw [List.foldl_map, List.foldl_reverse]
    have hstep :
        (Nat.digits 10 n).foldr (fun x y => 10 * y + (x + 48 - 48)) 0 =
          (Nat.digits 10 n).foldr (fun d a => 10 * a + d) 0 := by
      simp [Nat.add_sub_cancel]
    rw [hstep, foldr_ofDigits]
    exact_mod_cast Nat.ofDigits_digits 10 n

/-- Claim C9: for every `run_id` not containing the delimiter `"_"` and every
event id, the payload built by `store_event` (`run_id + "_" + str(id)`) is
decoded by `watcher_thread`'s `payload.split("_")` / `int(index_str)` back to
exactly the same run id and event id. -/
theorem c9_payload_roundtrip (run_id : RunId) (eid : Nat) (h : 95 ∉ run_id) :
    decodePayload (notifyPayload run_id eid) = some (run_id, eid) := by
  unfold notifyPayload decodePayload
  rw [splitOn95_append run_id (natDecChars eid) h,
    splitOn95_no_sep (natDecChars eid) (not_95_mem_natDecChars eid)]
  have h1 : (natDecChars eid).isEmpty = false := by
    cases hne : natDecChars eid with
    | nil => exact absurd hne (natDecChars_ne_nil eid)
    | cons a t => rfl
  simp [pyIntOfChars, h1, natDecChars_all_digits, parseDec_natDecChars]

/-- Witness for C9 at the concrete run id `"r1"` (code points `[114, 49]`) and
event id 7. -/
theorem c9_payload_roundtrip_witness :
    (95 : Nat) ∉ ([114, 49] : List Nat) ∧
      decodePayload (notifyPayload [114, 49] 7) = some ([114, 49], 7) :=
  ⟨by decide, c9_payload_roundtrip [114, 49] 7 (by decide)⟩

/-! ## Subscriber registry

`PostgresEventWatcher._handlers_dict` is a `defaultdict(list)` mapping run ids
to lists of `CallbackAfterCursor` subscriptions.  The imported
`CallbackAfterCursor` named tuple pairs a cursor with a callback; its
docstring in the repository reads "Only process EventLogEntrys with an
id >= start_cursor".  Python dictionaries have unique keys; they are modelled
as association lists, with `keysNodup` recording the uniqueness invariant. -/

structure CallbackAfterCursor where
  start_cursor : Int
  callback : Nat
deriving DecidableEq

abbrev Registry := List (RunId × List CallbackAfterCursor)

/-- Python `d.get(k)` / `k in d` (read side): find the value bound to `k`. -/
def dictLookup {α : Type} (d : List (RunId × α)) (k : RunId) : Option α :=
  match d with
  | [] => none
  | (k', v) :: t => if k' = k then some v else dictLookup t k

/-- Python `d[k] = v`: replace the binding of `k`, or append a new one. -/
def dictSet {α : Type} (d : List (RunId × α)) (k : RunId) (v : α) :
    List (RunId × α) :=
  match d with
  | [] => [(k, v)]
  | (k', v') :: t => if k' = k then (k, v) :: t else (k', v') :: dictSet t k v

/-- Python `del d[k]`: drop the binding of `k` (unique under `keysNodup`). -/
def dictDelete {α : Type} (d : List (RunId × α)) (k : RunId) :
    List (RunId × α) :=
  match d with
  | [] => []
  | (k', v') :: t => if k' = k then t else (k', v') :: dictDelete t k

/-- A Python dict never binds the same key twice. -/
abbrev keysNodup {α : Type} (d : List (RunId × α)) : Prop :=
  (d.map Prod.fst).Nodup

/-- `defaultdict(list)` append: `d[run_id].append(c)` (watch_run line 352). -/
def registryAppend (d : Registry) (k : RunId) (c : CallbackAfterCursor) :
    Registry :=
  dictSet d k (((dictLookup d k).getD []) ++ [c])

/-- `PostgresEventWatcher.unwatch_run` (lines 354-365): filter out the
subscriptions under `run_id` whose callback is identical to `handler`, and
drop the `run_id` entry entirely if the filtered list is empty.  A missing
`run_id` is a no-op. -/
def unwatch_run (d : Registry) (run_id : RunId) (handler : Nat) : Registry :=
  match dictLookup d run_id with
  | none => d
  | some l =>
    let l' := l.filter fun c => c.callback ≠ handler
    if l' = [] then dictDelete d run_id else dictSet d run_id l'

/-! ## Listener loop dispatch

`watcher_thread` (lines 260-304).  A `store : Nat → Bool` says which event ids
have a row in `event_logs` (the point fetch `SELECT event WHERE id = index`
returns a row exactly for those; `deserialize_as(None, ...)` on a missing row
raises).  `raises cb eid` says whether invoking callback `cb` on the event
with id `eid` raises; the dispatch loop catches and logs such exceptions. -/

/-- One pass of the `for callback_with_cursor in handlers` loop
(lines 297-304).  Returns the invocations performed, as (callback, event id)
pairs in invocation order, and the callbacks whose exception was caught and
logged by the `except` clause. -/
def runHandlers (handlers : List CallbackAfterCursor) (index : Nat)
    (raises : Nat → Nat → Bool) : List (Nat × Nat) × List Nat :=
  match handlers with
  | [] => ([], [])
  | h :: t =>
    let rest := runHandlers t index raises
    if h.start_cursor < (index : Int) then
      ((h.callback, index) :: rest.1,
        if raises h.callback index then h.callback :: rest.2 else rest.2)
    else rest

/-- Outcome of one iteration of the `for notif in await_pg_notifications`
loop: continue with the recorded invocations and logged callback failures,
break out of the loop, or die from an uncaught exception. -/
inductive MsgResult where
  | cont (invoked : List (Nat × Nat)) (logged : List Nat)
  | brk
  | crash
deriving DecidableEq

def MsgResult.invoked : MsgResult → List (Nat × Nat)
  | .cont inv _ => inv
  | _ => []

/-- One iteration of `watcher_thread`'s loop body (lines 276-304).
`notif = none` is a poll timeout (`yield_on_timeout`): break if the exit
event is set, otherwise keep listening.  A real payload is split on `"_"`
(a two-element unpacking that raises on any other arity), the run id is
checked against the registry, `int(index_str)` is parsed, the event row is
fetched (`deserialize_as(None, ...)` raises when the id has no row), and the
handlers are run with per-callback exception catching. -/
def processMessage (dict : Registry) (store : Nat → Bool)
    (raises : Nat → Nat → Bool) (exitSet : Bool)
    (notif : Option (List Nat)) : MsgResult :=
  match notif with
  | none => if exitSet then .brk else .cont [] []
  | some payload =>
    match splitOn95 payload with
    | [run_id, index_str] =>
      if (dictLookup dict run_id).isNone then .cont [] []
      else
        match pyIntOfChars index_str with
        | none => .crash
        | some index =>
          let handlers := (dictLookup dict run_id).getD []
          if store index then
            .cont (runHandlers handlers index raises).1
              (runHandlers handlers index raises).2
          else .crash
    | _ => .crash

inductive LoopStatus where
  | running
  | stopped
  | crashed
deriving DecidableEq

/-- The listener loop run over a finite prefix of the notification stream
with the exit event never set: accumulates all invocations, and reports
whether the loop is still listening, has broken out, or has died from an
uncaught exception (after which no further message is processed). -/
def watcherLoop (dict : Registry) (store : Nat → Bool)
    (raises : Nat → Nat → Bool) :
    List (Option (List Nat)) → List (Nat × Nat) × LoopStatus
  | [] => ([], .running)
  | m :: ms =>
    match processMessage dict store raises false m with
    | .cont inv _ =>
      let r := watcherLoop dict store raises ms
      (inv ++ r.1, r.2)
    | .brk => ([], .stopped)
    | .crash => ([], .crashed)

theorem runHandlers_eq (handlers : List CallbackAfterCursor) (index : Nat)
    (raises : Nat → Nat → Bool) :
    runHandlers handlers index raises =
      ((handlers.filter fun h => h.start_cursor < (index : Int)).map
          fun h => (h.callback, index),
        (handlers.filter fun h =>
            decide (h.start_cursor < (index : Int)) &&
              raises h.callback index).map
          fun h => h.callback) := by
  induction handlers with
  | nil => rfl
  | cons h t ih =>
    simp only [runHandlers, ih, List.filter_cons]
    by_cases hc : h.start_cursor < (index : Int)
    · by_cases hr : raises h.callback index = true <;> simp [hc, hr]
    · simp [hc]

/-- The invocations of a handler pass do not depend on which callbacks
raise. -/
theorem runHandlers_invoked_raises (handlers : List CallbackAfterCursor)
    (index : Nat) (raises raises' : Nat → Nat → Bool) :
    (runHandlers handlers index raises).1 =
      (runHandlers handlers index raises').1 := by
  rw [runHandlers_eq, runHandlers_eq]

/-- Forget the logged-exception component of a loop iteration outcome. -/
def stripLogs : MsgResult → MsgResult
  | .cont inv _ => .cont inv []
  | r => r

/-- Up to logging, one loop iteration is insensitive to callbacks raising:
the same invocations happen and the loop continues, breaks or crashes
identically. -/
theorem processMessage_raises_stripLogs (dict : Registry) (store : Nat → Bool)
    (raises raises' : Nat → Nat → Bool) (exitSet : Bool)
    (notif : Option (List Nat)) :
    stripLogs (processMessage dict store raises exitSet notif) =
      stripLogs (processMessage dict store raises' exitSet notif) := by
  cases notif with
  | none => rfl
  | some payload =>
    cases hsp : splitOn95 payload with
    | nil => simp [processMessage, hsp]
    | cons a rest =>
      cases rest with
      | nil => simp [processMessage, hsp]
      | cons b rest2 =>
        cases rest2 with
        | cons x xs => simp [processMessage, hsp]
        | nil =>
          simp only [processMessage, hsp]
          cases hlk : dictLookup dict a with
          | none => simp [hlk]
          | some l =>
            simp only [hlk, Option.isNone_some, Bool.false_eq_true, if_false]
            cases hint : pyIntOfChars b with
            | none => rfl
            | some index =>
              by_cases hst : store index = true <;>
                simp [hst, stripLogs,
                  runHandlers_invoked_raises l index raises raises']

/-- The full loop run is insensitive to callbacks raising. -/
theorem watcherLoop_raises_irrelevant (dict : Registry) (store : Nat → Bool)
    (raises : Nat → Nat → Bool) (msgs : List (Option (List Nat))) :
    watcherLoop dict store raises msgs =
      watcherLoop dict store (fun _ _ => false) msgs := by
  induction msgs with
  | nil => rfl
  | cons m ms ih =>
    have hs := processMessage_raises_stripLogs dict store raises
      (fun _ _ => false) false m
    cases h1 : processMessage dict store raises false m with
    | cont inv lg =>
      cases h2 : processMessage dict store (fun _ _ => false) false m with
      | cont inv' lg' =>
        rw [h1, h2] at hs
        simp only [stripLogs, MsgResult.cont.injEq] at hs
        simp [watcherLoop, h1, h2, hs.1, ih]
      | brk => rw [h1, h2] at hs; exact absurd hs (by simp [stripLogs])
      | crash => rw [h1, h2] at hs; exact absurd hs (by simp [stripLogs])
    | brk =>
      cases h2 : processMessage dict store (fun _ _ => false) false m with
      | cont inv' lg' => rw [h1, h2] at hs; exact absurd hs (by simp [stripLogs])
      | brk => simp [watcherLoop, h1, h2]
      | crash => rw [h1, h2] at hs; exact absurd hs (by simp [stripLogs])
    | crash =>
      cases h2 : processMessage dict store (fun _ _ => false) false m with
      | cont inv' lg' => rw [h1, h2] at hs; exact absurd hs (by simp [stripLogs])
      | brk => rw [h1, h2] at hs; exact absurd hs (by simp [stripLogs])
      | crash => simp [watcherLoop, h1, h2]

/-- Claim C3: a raising callback is caught by the `try`/`except` around the
callback invocation (lines 299-304).  Concretely: (1) one dispatch pass over
a run's subscriber list invokes exactly the subscribers whose cursor
qualifies (`start_cursor < index`), in registration order, no matter which
callbacks raise, and logs exactly the qualifying callbacks that raised — so
a raising subscriber stops neither the remaining subscribers nor itself from
being invoked, and the registry (which dispatch never mutates) keeps the
raising subscriber registered; (2) the whole listener loop behaves
identically (same invocations, same continue/break/crash outcome on every
subsequent message) whether or not any callback raises. -/
theorem c3_callback_exception_isolated :
    (∀ (handlers : List CallbackAfterCursor) (index : Nat)
        (raises : Nat → Nat → Bool),
      runHandlers handlers index raises =
        ((handlers.filter fun h => h.start_cursor < (index : Int)).map
            fun h => (h.callback, index),
          (handlers.filter fun h =>
              decide (h.start_cursor < (index : Int)) &&
                raises h.callback index).map
            fun h => h.callback)) ∧
    (∀ (dict : Registry) (store : Nat → Bool) (raises : Nat → Nat → Bool)
        (msgs : List (Option (List Nat))),
      watcherLoop dict store raises msgs =
        watcherLoop dict store (fun _ _ => false) msgs) :=
  ⟨runHandlers_eq, watcherLoop_raises_irrelevant⟩

/-! ## Dictionary lemmas -/

theorem dictLookup_eq_none_of_not_mem {α : Type} (d : List (RunId × α))
    (k : RunId) (h : k ∉ d.map Prod.fst) : dictLookup d k = none := by
  induction d with
  | nil => rfl
  | cons p t ih =>
    obtain ⟨k', v⟩ := p
    simp only [List.map_cons, List.mem_cons] at h
    push_neg at h
    simp only [dictLookup]
    rw [if_neg fun hk => h.1 hk.symm]
    exact ih h.2

theorem dictLookup_dictSet_self {α : Type} (d : List (RunId × α)) (k : RunId)
    (v : α) : dictLookup (dictSet d k v) k = some v := by
  induction d with
  | nil => simp [dictSet, dictLookup]
  | cons p t ih =>
    obtain ⟨k', v'⟩ := p
    by_cases hk : k' = k
    · simp [dictSet, hk, dictLookup]
    · simp [dictSet, hk, dictLookup, ih]

theorem dictLookup_dictSet_ne {α : Type} (d : List (RunId × α)) (k : RunId)
    (v : α) (k' : RunId) (h : k' ≠ k) :
    dictLookup (dictSet d k v) k' = dictLookup d k' := by
  have hkk : k ≠ k' := fun he => h he.symm
  induction d with
  | nil => simp only [dictSet, dictLookup, if_neg hkk]
  | cons p t ih =>
    obtain ⟨k0, v0⟩ := p
    by_cases hk : k0 = k
    · subst hk
      have hds : dictSet ((k0, v0) :: t) k0 v = (k0, v) :: t := by
        simp [dictSet]
      rw [hds]
      simp only [dictLookup, if_neg hkk]
    · have hds : dictSet ((k0, v0) :: t) k v = (k0, v0) :: dictSet t k v := by
        simp [dictSet, hk]
      rw [hds]
      simp only [dictLookup]
      by_cases hk' : k0 = k'
      · rw [if_pos hk', if_pos hk']
      · rw [if_neg hk', if_neg hk']
        exact ih

theorem dictLookup_dictDelete_ne {α : Type} (d : List (RunId × α)) (k : RunId)
    (k' : RunId) (h : k' ≠ k) :
    dictLookup (dictDelete d k) k' = dictLookup d k' := by
  have hkk : k ≠ k' := fun he => h he.symm
  induction d with
  | nil => rfl
  | cons p t ih =>
    obtain ⟨k0, v0⟩ := p
    by_cases hk : k0 = k
    · subst hk
      have hds : dictDelete ((k0, v0) :: t) k0 = t := by
        simp [dictDelete]
      rw [hds]
      simp only [dictLookup, if_neg hkk]
    · have hds : dictDelete ((k0, v0) :: t) k = (k0, v0) :: dictDelete t k := by
        simp [dictDelete, hk]
      rw [hds]
      simp only [dictLookup]
      by_cases hk' : k0 = k'
      · rw [if_pos hk', if_pos hk']
      · rw [if_neg hk', if_neg hk']
        exact ih

theorem dictLookup_dictDelete_self {α : Type} (d : List (RunId × α))
    (k : RunId) (h : keysNodup d) : dictLookup (dictDelete d k) k = none := by
  induction d with
  | nil => rfl
  | cons p t ih =>
    obtain ⟨k0, v0⟩ := p
    simp only [keysNodup, List.map_cons, List.nodup_cons] at h
    by_cases hk : k0 = k
    · have hds : dictDelete ((k0, v0) :: t) k = t := by
        simp [dictDelete, hk]
      rw [hds]
      exact dictLookup_eq_none_of_not_mem t k (hk ▸ h.1)
    · have hds : dictDelete ((k0, v0) :: t) k = (k0, v0) :: dictDelete t k := by
        simp [dictDelete, hk]
      rw [hds]
      simp only [dictLookup, if_neg hk]
      exact ih h.2

theorem mem_keys_dictSet {α : Type} (d : List (RunId × α)) (k : RunId) (v : α)
    (x : RunId) :
    x ∈ (dictSet d k v).map Prod.fst ↔ x ∈ d.map Prod.fst ∨ x = k := by
  induction d with
  | nil => simp [dictSet]
  | cons p t ih =>
    obtain ⟨k0, v0⟩ := p
    by_cases hk : k0 = k
    · subst hk
      have hds : dictSet ((k0, v0) :: t) k0 v = (k0, v) :: t := by
        simp [dictSet]
      rw [hds]
      simp only [List.map_cons, List.mem_cons]
      tauto
    · have hds : dictSet ((k0, v0) :: t) k v = (k0, v0) :: dictSet t k v := by
        simp [dictSet, hk]
      rw [hds]
      simp only [List.map_cons, List.mem_cons, ih]
      tauto

theorem keysNodup_dictSet {α : Type} (d : List (RunId × α)) (k : RunId)
    (v : α) (h : keysNodup d) : keysNodup (dictSet d k v) := by
  induction d with
  | nil => simp [dictSet, keysNodup]
  | cons p t ih =>
    obtain ⟨k0, v0⟩ := p
    simp only [keysNodup, List.map_cons, List.nodup_cons] at h
    by_cases hk : k0 = k
    · subst hk
      have hds : dictSet ((k0, v0) :: t) k0 v = (k0, v) :: t := by
        simp [dictSet]
      rw [hds]
      simp only [keysNodup, List.map_cons, List.nodup_cons]
      exact ⟨h.1, h.2⟩
    · have hds : dictSet ((k0, v0) :: t) k v = (k0, v0) :: dictSet t k v := by
        simp [dictSet, hk]
      rw [hds]
      simp only [keysNodup, List.map_cons, List.nodup_cons]
      refine ⟨fun hmem => ?_, ih h.2⟩
      rcases (mem_keys_dictSet t k v k0).mp hmem with hm | he
      · exact h.1 hm
      · exact hk he

/-! ## unwatch_run (claim C6) -/

/-- Other runs are untouched by `unwatch_run`. -/
theorem unwatch_run_other_runs (d : Registry) (r : RunId) (cb : Nat)
    (r' : RunId) (h : r' ≠ r) :
    dictLookup (unwatch_run d r cb) r' = dictLookup d r' := by
  cases hl : dictLookup d r with
  | none => simp [unwatch_run, hl]
  | some l =>
    simp only [unwatch_run, hl]
    by_cases he : l.filter (fun c => c.callback ≠ cb) = []
    · simp only [he, if_true]
      exact dictLookup_dictDelete_ne d r r' h
    · simp only [he, if_false]
      exact dictLookup_dictSet_ne d r _ r' h

/-- The run's own entry after `unwatch_run`: identity-matching subscriptions
are filtered out and an emptied entry is deleted. -/
theorem unwatch_run_lookup_eq (d : Registry) (r : RunId) (cb : Nat)
    (hn : keysNodup d) :
    dictLookup (unwatch_run d r cb) r =
      match dictLookup d r with
      | none => none
      | some l =>
        let l' := l.filter fun c => c.callback ≠ cb
        if l' = [] then none else some l' := by
  cases hl : dictLookup d r with
  | none => simp [unwatch_run, hl]
  | some l =>
    simp only [unwatch_run, hl]
    by_cases he : l.filter (fun c => c.callback ≠ cb) = []
    · simp only [he, if_true]
      exact dictLookup_dictDelete_self d r hn
    · simp only [he, if_false]
      exact dictLookup_dictSet_self d r _

/-- Whatever subscriber list `unwatch_run` leaves under `r`, none of its
members has the removed callback. -/
theorem unwatch_run_lookup_filter (d : Registry) (r : RunId) (cb : Nat)
    (hn : keysNodup d) (l' : List CallbackAfterCursor)
    (h : dictLookup (unwatch_run d r cb) r = some l') :
    ∀ c ∈ l', c.callback ≠ cb := by
  rw [unwatch_run_lookup_eq d r cb hn] at h
  cases hl : dictLookup d r with
  | none => rw [hl] at h; cases h
  | some l =>
    rw [hl] at h
    simp only at h
    by_cases he : l.filter (fun c => c.callback ≠ cb) = []
    · rw [if_pos he] at h; cases h
    · rw [if_neg he] at h
      injection h with h
      intro c hc
      rw [← h] at hc
      have := List.of_mem_filter hc
      simpa using this

/-- After `unwatch_run d r cb`, no notification whose payload names run `r`
ever invokes `cb`. -/
theorem unwatch_run_never_invokes (d : Registry) (r : RunId) (cb : Nat)
    (istr : List Nat) (store : Nat → Bool) (raises : Nat → Nat → Bool)
    (pr : Nat × Nat) (h95 : 95 ∉ r) (hn : keysNodup d)
    (hmem : pr ∈ (processMessage (unwatch_run d r cb) store raises false
        (some (r ++ 95 :: istr))).invoked) : pr.1 ≠ cb := by
  by_cases h95i : (95 : Nat) ∈ istr
  · rcases hsp2 : splitOn95 istr with _ | ⟨x, t⟩
    · exact absurd hsp2 (splitOn95_ne_nil istr)
    · rcases t with _ | ⟨y, t2⟩
      · have hlen := splitOn95_long_of_mem istr h95i
        rw [hsp2] at hlen
        simp at hlen
      · have hsp : splitOn95 (r ++ 95 :: istr) = r :: x :: y :: t2 := by
          rw [splitOn95_append r istr h95, hsp2]
        simp [processMessage, hsp, MsgResult.invoked] at hmem
  · have hsp : splitOn95 (r ++ 95 :: istr) = [r, istr] := by
      rw [splitOn95_append r istr h95, splitOn95_no_sep istr h95i]
    simp only [processMessage, hsp] at hmem
    cases hlk : dictLookup (unwatch_run d r cb) r with
    | none => simp [hlk, MsgResult.invoked] at hmem
    | some l' =>
      simp only [hlk, Option.isNone_some, Bool.false_eq_true, if_false] at hmem
      cases hint : pyIntOfChars istr with
      | none => simp [hint, MsgResult.invoked] at hmem
      | some index =>
        simp only [hint, Option.getD_some] at hmem
        by_cases hst : store index = true
        · simp only [hst, if_true, MsgResult.invoked] at hmem
          rw [runHandlers_eq] at hmem
          simp only [List.mem_map, List.mem_filter] at hmem
          obtain ⟨hh, ⟨hmem', hq⟩, hpr⟩ := hmem
          rw [← hpr]
          exact unwatch_run_lookup_filter d r cb hn l' hlk hh hmem'
        · simp [hst, MsgResult.invoked] at hmem

/-- Claim C6: `unwatch_run(run_id, handler)` removes exactly the
subscriptions under `run_id` whose callback is identical to `handler`
(keeping the rest of that run's list and every other run untouched), deletes
the `run_id` entry entirely when its list becomes empty, is a total no-op
when `run_id` or the callback is absent, and afterwards no notification for
that run ever invokes the removed callback. -/
theorem c6_unwatch_run_semantics :
    (∀ (d : Registry) (r : RunId) (cb : Nat) (r' : RunId), r' ≠ r →
      dictLookup (unwatch_run d r cb) r' = dictLookup d r') ∧
    (∀ (d : Registry) (r : RunId) (cb : Nat), keysNodup d →
      dictLookup (unwatch_run d r cb) r =
        match dictLookup d r with
        | none => none
        | some l =>
          let l' := l.filter fun c => c.callback ≠ cb
          if l' = [] then none else some l') ∧
    (∀ (d : Registry) (r : RunId) (cb : Nat) (istr : List Nat)
        (store : Nat → Bool) (raises : Nat → Nat → Bool) (pr : Nat × Nat),
      95 ∉ r → keysNodup d →
      pr ∈ (processMessage (unwatch_run d r cb) store raises false
          (some (r ++ 95 :: istr))).invoked → pr.1 ≠ cb) :=
  ⟨unwatch_run_other_runs, unwatch_run_lookup_eq,
    fun d r cb istr store raises pr h95 hn hmem =>
      unwatch_run_never_invokes d r cb istr store raises pr h95 hn hmem⟩

/-- Callbacks never raise: the trivial behaviour environment. -/
def noRaise : Nat → Nat → Bool := fun _ _ => false

/-- A concrete registry: run `"r"` (code point 114) has subscribers 7 and 8,
run `"s"` (115) has subscriber 9. -/
def dC6 : Registry := [([114], [⟨0, 7⟩, ⟨0, 8⟩]), ([115], [⟨0, 9⟩])]

/-- A concrete store containing exactly event id 2. -/
def storeC6 : Nat → Bool := fun n => n == 2

/-- Witness for C6 at a concrete registry: after `unwatch_run dC6 "r" 7`,
run `"s"` is untouched, run `"r"` keeps subscriber 8 only, and the
notification `"r_2"` invokes subscriber 8 but never 7. -/
theorem c6_unwatch_run_semantics_witness :
    (([115] : RunId) ≠ [114] ∧
      dictLookup (unwatch_run dC6 [114] 7) [115] = dictLookup dC6 [115]) ∧
    (keysNodup dC6 ∧
      dictLookup (unwatch_run dC6 [114] 7) [114] =
        match dictLookup dC6 [114] with
        | none => none
        | some l =>
          let l' := l.filter fun c => c.callback ≠ 7
          if l' = [] then none else some l') ∧
    ((95 : Nat) ∉ ([114] : RunId) ∧
      ((8, 2) : Nat × Nat) ∈ (processMessage (unwatch_run dC6 [114] 7)
          storeC6 noRaise false (some ([114] ++ 95 :: [50]))).invoked ∧
      ((8, 2) : Nat × Nat).1 ≠ 7) :=
  ⟨⟨by decide, c6_unwatch_run_semantics.1 dC6 [114] 7 [115] (by decide)⟩,
    ⟨by decide, c6_unwatch_run_semantics.2.1 dC6 [114] 7 (by decide)⟩,
    ⟨by decide, by decide,
      c6_unwatch_run_semantics.2.2 dC6 [114] 7 [50] storeC6 noRaise (8, 2)
        (by decide) (by decide) (by decide)⟩⟩

/-! ## Watcher lifecycle (`PostgresEventWatcher`, lines 307-372)

The state of one `PostgresEventWatcher` instance.  `threads` records every
thread this instance ever spawned, in spawn order, with its current liveness
(`true` = still running); `watcher_thread` is the index stored in
`self._watcher_thread` (`none` = Python `None`).  The Python code only ever
tests the handle for `None`; liveness is tracked so that claims about dead
listener threads can be stated. -/

structure PostgresEventWatcher where
  handlers_dict : Registry
  threads : List Bool
  watcher_thread : Option Nat
deriving DecidableEq

def initialWatcher : PostgresEventWatcher := ⟨[], [], none⟩

/-- Thread `j` of `s` is still running. -/
abbrev threadAlive (s : PostgresEventWatcher) (j : Nat) : Prop :=
  s.threads.getD j false = true

/-- `threading.Event.wait(timeout)` followed by `is_set()`: the started event
is observed set exactly when the spawned thread signals it (`signalTime`)
within `timeout`; a signal that never arrives (`none`) is never observed. -/
def eventWaitSet (signalTime : Option Nat) (timeout : Nat) : Bool :=
  match signalTime with
  | none => false
  | some t => decide (t ≤ timeout)

/-- `PostgresEventWatcher.watch_run` (lines 317-352).  If no thread handle is
set, a new thread is spawned and the handle set, then the caller blocks on
`_watcher_thread_started.wait(start_timeout)`; if the started event is not
set afterwards, `Exception("Watcher thread never started")` is raised (second
component `true`) and the registration is skipped.  Otherwise — and always
when a handle already exists — `CallbackAfterCursor(start_cursor + 1,
callback)` is appended under `run_id`. -/
def watch_run (s : PostgresEventWatcher) (run_id : RunId) (start_cursor : Int)
    (callback : Nat) (start_timeout : Nat) (signalTime : Option Nat) :
    PostgresEventWatcher × Bool :=
  match s.watcher_thread with
  | some i =>
    (⟨registryAppend s.handlers_dict run_id ⟨start_cursor + 1, callback⟩,
      s.threads, some i⟩, false)
  | none =>
    if eventWaitSet signalTime start_timeout then
      (⟨registryAppend s.handlers_dict run_id ⟨start_cursor + 1, callback⟩,
        s.threads ++ [true], some s.threads.length⟩, false)
    else
      (⟨s.handlers_dict, s.threads ++ [true], some s.threads.length⟩, true)

/-- `PostgresEventWatcher.close` (lines 367-372): with a thread handle set,
set the exit event, `join()` the thread (it observes the exit flag at the
next poll timeout and stops — see `processMessage` with `exitSet = true`),
and clear the handle.  With no handle, do nothing. -/
def close (s : PostgresEventWatcher) : PostgresEventWatcher :=
  match s.watcher_thread with
  | none => s
  | some i => ⟨s.handlers_dict, s.threads.set i false, none⟩

/-! ### List.getD helpers -/

theorem boolGetD_out (l : List Bool) : ∀ j, l.length ≤ j →
    l.getD j false = false := by
  induction l with
  | nil => intro j _; cases j <;> rfl
  | cons a t ih =>
    intro j hj
    cases j with
    | zero => simp at hj
    | succ j' =>
      show t.getD j' false = false
      exact ih j' (by simpa using hj)

theorem boolGetD_append (l : List Bool) (b : Bool) (j : Nat)
    (h : (l ++ [b]).getD j false = true) :
    (j < l.length ∧ l.getD j false = true) ∨ (j = l.length ∧ b = true) := by
  induction l generalizing j with
  | nil =>
    cases j with
    | zero => right; exact ⟨rfl, h⟩
    | succ j' =>
      have h' : ([] : List Bool).getD j' false = true := h
      rw [boolGetD_out [] j' (Nat.zero_le j')] at h'
      exact Bool.noConfusion h'
  | cons a t ih =>
    cases j with
    | zero => left; exact ⟨Nat.succ_pos _, h⟩
    | succ j' =>
      rcases ih j' h with ⟨h1, h2⟩ | ⟨h1, h2⟩
      · left; exact ⟨Nat.succ_lt_succ h1, h2⟩
      · right; exact ⟨by simp [h1], h2⟩

theorem boolGetD_set (l : List Bool) : ∀ i j,
    ((l.set i false).getD j false = true) →
      j ≠ i ∧ l.getD j false = true := by
  induction l with
  | nil =>
    intro i j h
    rw [List.set_nil, boolGetD_out [] j (Nat.zero_le j)] at h
    exact Bool.noConfusion h
  | cons a t ih =>
    intro i j h
    cases i with
    | zero =>
      cases j with
      | zero => exact Bool.noConfusion h
      | succ j' => exact ⟨Nat.succ_ne_zero j', h⟩
    | succ i' =>
      cases j with
      | zero => exact ⟨fun he => Nat.succ_ne_zero i' he.symm, h⟩
      | succ j' =>
        rcases ih i' j' h with ⟨hne, hg⟩
        exact ⟨fun he => hne (Nat.succ_injective he), hg⟩

/-! ### Reduction lemmas for watch_run -/

theorem watch_run_some (s : PostgresEventWatcher) (i : Nat)
    (hw : s.watcher_thread = some i) (r : RunId) (c : Int) (cb tm : Nat)
    (sig : Option Nat) :
    watch_run s r c cb tm sig =
      (⟨registryAppend s.handlers_dict r ⟨c + 1, cb⟩, s.threads, some i⟩,
        false) := by
  unfold watch_run
  rw [hw]

theorem watch_run_none (s : PostgresEventWatcher)
    (hw : s.watcher_thread = none) (r : RunId) (c : Int) (cb tm : Nat)
    (sig : Option Nat) :
    watch_run s r c cb tm sig =
      if eventWaitSet sig tm then
        (⟨registryAppend s.handlers_dict r ⟨c + 1, cb⟩, s.threads ++ [true],
          some s.threads.length⟩, false)
      else
        (⟨s.handlers_dict, s.threads ++ [true], some s.threads.length⟩,
          true) := by
  unfold watch_run
  rw [hw]

/-! ### Environment operations on a watcher instance

Besides the API calls (`watch_run`, `unwatch_run`, `close`), the environment
can deliver a channel message to the listener thread (`notify`, which has an
effect only while the thread is alive, and which kills the thread if the
iteration raises) or kill the thread with any other uncaught exception
(`crash`).  Each step returns the new state, the callback invocations
performed, and whether the API call raised. -/

inductive WatcherOp where
  | watch (run_id : RunId) (start_cursor : Int) (callback : Nat)
      (start_timeout : Nat) (signalTime : Option Nat)
  | unwatch (run_id : RunId) (callback : Nat)
  | close
  | crash
  | notify (store : Nat → Bool) (payload : Option (List Nat))
      (raises : Nat → Nat → Bool)

def WatcherOp.isClose : WatcherOp → Bool
  | .close => true
  | _ => false

def noCloseOps (ops : List WatcherOp) : Bool :=
  ops.all fun op => !op.isClose

def stepOp (s : PostgresEventWatcher) :
    WatcherOp → PostgresEventWatcher × List (Nat × Nat) × Bool
  | .watch r c cb tm sig =>
    let wr := watch_run s r c cb tm sig
    (wr.1, [], wr.2)
  | .unwatch r cb =>
    (⟨unwatch_run s.handlers_dict r cb, s.threads, s.watcher_thread⟩, [],
      false)
  | .close => (close s, [], false)
  | .crash =>
    match s.watcher_thread with
    | some i =>
      (⟨s.handlers_dict, s.threads.set i false, some i⟩, [], false)
    | none => (s, [], false)
  | .notify store payload raises =>
    match s.watcher_thread with
    | none => (s, [], false)
    | some i =>
      if s.threads.getD i false then
        match processMessage s.handlers_dict store raises false payload with
        | .cont inv _ => (s, inv, false)
        | .brk => (s, [], false)
        | .crash =>
          (⟨s.handlers_dict, s.threads.set i false, some i⟩, [], false)
      else (s, [], false)

def runOps (s : PostgresEventWatcher) :
    List WatcherOp → PostgresEventWatcher × List (Nat × Nat) × List Bool
  | [] => (s, [], [])
  | op :: t =>
    let r1 := stepOp s op
    let r2 := runOps r1.1 t
    (r2.1, r1.2.1 ++ r2.2.1, r1.2.2 :: r2.2.2)

/-- The lifecycle invariant: every live thread is the one the handle points
to (hence there is at most one live thread). -/
def WatcherInv (s : PostgresEventWatcher) : Prop :=
  ∀ j, threadAlive s j → s.watcher_thread = some j

theorem watcherInv_initial : WatcherInv initialWatcher := by
  intro j hj
  have hj' : ([] : List Bool).getD j false = true := hj
  rw [boolGetD_out [] j (Nat.zero_le j)] at hj'
  exact Bool.noConfusion hj'

theorem watcherInv_stepOp (s : PostgresEventWatcher) (op : WatcherOp)
    (h : WatcherInv s) : WatcherInv (stepOp s op).1 := by
  cases op with
  | watch r c cb tm sig =>
    cases hw : s.watcher_thread with
    | some i =>
      intro j hj
      simp only [stepOp, watch_run_some s i hw] at hj ⊢
      exact hw.symm.trans (h j hj)
    | none =>
      by_cases hws : eventWaitSet sig tm = true
      · intro j hj
        simp only [stepOp, watch_run_none s hw, if_pos hws] at hj ⊢
        rcases boolGetD_append s.threads true j hj with ⟨_, hal⟩ | ⟨hj', _⟩
        · have hc := h j hal
          rw [hw] at hc
          exact Option.noConfusion hc
        · rw [hj']
      · intro j hj
        simp only [stepOp, watch_run_none s hw, if_neg hws] at hj ⊢
        rcases boolGetD_append s.threads true j hj with ⟨_, hal⟩ | ⟨hj', _⟩
        · have hc := h j hal
          rw [hw] at hc
          exact Option.noConfusion hc
        · rw [hj']
  | unwatch r cb =>
    intro j hj
    exact h j hj
  | close =>
    cases hw : s.watcher_thread with
    | none =>
      intro j hj
      simp only [stepOp, close, hw] at hj ⊢
      exact hw ▸ h j hj
    | some i =>
      intro j hj
      simp only [stepOp, close, hw] at hj ⊢
      rcases boolGetD_set s.threads i j hj with ⟨hne, hal⟩
      have hc := h j hal
      rw [hw] at hc
      injection hc with hc
      exact (hne hc.symm).elim
  | crash =>
    cases hw : s.watcher_thread with
    | none =>
      intro j hj
      simp only [stepOp, hw] at hj ⊢
      exact hw ▸ h j hj
    | some i =>
      intro j hj
      simp only [stepOp, hw] at hj ⊢
      rcases boolGetD_set s.threads i j hj with ⟨hne, hal⟩
      have hc := h j hal
      rw [hw] at hc
      injection hc with hc
      exact (hne hc.symm).elim
  | notify store payload raises =>
    cases hw : s.watcher_thread with
    | none =>
      intro j hj
      simp only [stepOp, hw] at hj ⊢
      exact hw ▸ h j hj
    | some i =>
      by_cases hal : s.threads.getD i false = true
      · cases hpm : processMessage s.handlers_dict store raises false payload
          with
        | cont inv lg =>
          intro j hj
          simp only [stepOp, hw, if_pos hal, hpm] at hj ⊢
          exact hw.symm.trans (h j hj)
        | brk =>
          intro j hj
          simp only [stepOp, hw, if_pos hal, hpm] at hj ⊢
          exact hw.symm.trans (h j hj)
        | crash =>
          intro j hj
          simp only [stepOp, hw, if_pos hal, hpm] at hj ⊢
          rcases boolGetD_set s.threads i j hj with ⟨hne, hal'⟩
          have hc := h j hal'
          rw [hw] at hc
          injection hc with hc
          exact (hne hc.symm).elim
      · intro j hj
        simp only [stepOp, hw, if_neg hal] at hj ⊢
        exact hw.symm.trans (h j hj)

theorem watcherInv_runOps (ops : List WatcherOp) :
    ∀ s, WatcherInv s → WatcherInv (runOps s ops).1 := by
  induction ops with
  | nil => intro s h; exact h
  | cons op t ih =>
    intro s h
    exact ih (stepOp s op).1 (watcherInv_stepOp s op h)

/-- Claim C4: `watch_run` starts a listener thread only when the handle is
unset — exactly one new thread, whose index becomes the handle —, registers
without spawning when a handle exists, and consequently every reachable
watcher state has at most one live listener thread. -/
theorem c4_single_listener_thread :
    (∀ (s : PostgresEventWatcher) (r : RunId) (c : Int) (cb tm : Nat)
        (sig : Option Nat), s.watcher_thread = none →
      (watch_run s r c cb tm sig).1.threads.length = s.threads.length + 1 ∧
      (watch_run s r c cb tm sig).1.watcher_thread =
        some s.threads.length) ∧
    (∀ (s : PostgresEventWatcher) (i : Nat) (r : RunId) (c : Int)
        (cb tm : Nat) (sig : Option Nat), s.watcher_thread = some i →
      watch_run s r c cb tm sig =
        (⟨registryAppend s.handlers_dict r ⟨c + 1, cb⟩, s.threads,
          some i⟩, false)) ∧
    (∀ (ops : List WatcherOp) (j k : Nat),
      threadAlive (runOps initialWatcher ops).1 j →
      threadAlive (runOps initialWatcher ops).1 k → j = k) := by
  refine ⟨?_, ?_, ?_⟩
  · intro s r c cb tm sig hw
    rw [watch_run_none s hw r c cb tm sig]
    by_cases hws : eventWaitSet sig tm = true
    · rw [if_pos hws]
      constructor <;> simp
    · rw [if_neg hws]
      constructor <;> simp
  · intro s i r c cb tm sig hw
    exact watch_run_some s i hw r c cb tm sig
  · intro ops j k hj hk
    have hInv := watcherInv_runOps ops initialWatcher watcherInv_initial
    have h1 := hInv j hj
    have h2 := hInv k hk
    rw [h1] at h2
    injection h2

/-- A watcher whose (sole) spawned thread is running. -/
def sC4 : PostgresEventWatcher := ⟨[], [true], some 0⟩

/-- Witness for C4: the very first `watch_run` on a fresh watcher spawns
thread 0; a second `watch_run` only registers; one live thread remains. -/
theorem c4_single_listener_thread_witness :
    (initialWatcher.watcher_thread = none ∧
      (watch_run initialWatcher [114] 1 7 15 (some 0)).1.threads.length =
        initialWatcher.threads.length + 1 ∧
      (watch_run initialWatcher [114] 1 7 15 (some 0)).1.watcher_thread =
        some initialWatcher.threads.length) ∧
    (sC4.watcher_thread = some 0 ∧
      watch_run sC4 [114] 1 8 15 none =
        (⟨registryAppend sC4.handlers_dict [114] ⟨(1 : Int) + 1, 8⟩,
          sC4.threads, some 0⟩, false)) ∧
    (threadAlive
        (runOps initialWatcher [WatcherOp.watch [114] 1 7 15 (some 0)]).1 0 ∧
      (0 : Nat) = 0) :=
  ⟨⟨rfl, c4_single_listener_thread.1 initialWatcher [114] 1 7 15 (some 0)
      rfl⟩,
    ⟨rfl, c4_single_listener_thread.2.1 sC4 0 [114] 1 8 15 none rfl⟩,
    ⟨by decide,
      c4_single_listener_thread.2.2 [WatcherOp.watch [114] 1 7 15 (some 0)]
        0 0 (by decide) (by decide)⟩⟩

/-- Claim C5: a `watch_run` that has to start the listener thread blocks on
the started event and raises (`Exception("Watcher thread never started")`,
the spec's `ListenerStartTimeout`) exactly when the started signal is not
observed within `start_timeout`; in particular a signal that never arrives
raises for every timeout, including `start_timeout = 0`. -/
theorem c5_listener_start_timeout :
    (∀ (s : PostgresEventWatcher) (r : RunId) (c : Int) (cb tm : Nat)
        (sig : Option Nat), s.watcher_thread = none →
      ((watch_run s r c cb tm sig).2 = true ↔ eventWaitSet sig tm = false)) ∧
    (∀ (sig : Option Nat) (tm : Nat),
      eventWaitSet sig tm = true ↔ ∃ t, sig = some t ∧ t ≤ tm) ∧
    (∀ (s : PostgresEventWatcher) (r : RunId) (c : Int) (cb : Nat),
      s.watcher_thread = none → (watch_run s r c cb 0 none).2 = true) := by
  refine ⟨?_, ?_, ?_⟩
  · intro s r c cb tm sig hw
    rw [watch_run_none s hw r c cb tm sig]
    by_cases hws : eventWaitSet sig tm = true
    · rw [if_pos hws]
      simp [hws]
    · rw [if_neg hws]
      simp only [Bool.not_eq_true] at hws
      simp [hws]
  · intro sig tm
    cases sig with
    | none => simp [eventWaitSet]
    | some t => simp [eventWaitSet]
  · intro s r c cb hw
    rw [watch_run_none s hw r c cb 0 none]
    rfl

/-- Witness for C5: a fresh watcher, a started signal that never arrives,
and `start_timeout = 0`. -/
theorem c5_listener_start_timeout_witness :
    (initialWatcher.watcher_thread = none ∧
      ((watch_run initialWatcher [114] 1 7 0 none).2 = true ↔
        eventWaitSet none 0 = false)) ∧
    (initialWatcher.watcher_thread = none ∧
      (watch_run initialWatcher [114] 1 7 0 none).2 = true) :=
  ⟨⟨rfl, c5_listener_start_timeout.1 initialWatcher [114] 1 7 0 none rfl⟩,
    ⟨rfl, c5_listener_start_timeout.2.2 initialWatcher [114] 1 7 rfl⟩⟩

/-- Claim C7: `close` clears the handle and stops the handle's thread (the
join terminates because a set exit event makes the loop break at its next
poll timeout — last conjunct); it is a no-op when no thread is running and
is idempotent, so a second call neither errors nor hangs. -/
theorem c7_close_idempotent :
    (∀ (s : PostgresEventWatcher) (i : Nat), s.watcher_thread = some i →
      (close s).watcher_thread = none ∧ ¬ threadAlive (close s) i) ∧
    (∀ s : PostgresEventWatcher, s.watcher_thread = none → close s = s) ∧
    (∀ s : PostgresEventWatcher, close (close s) = close s) ∧
    (∀ (dict : Registry) (store : Nat → Bool) (raises : Nat → Nat → Bool),
      processMessage dict store raises true none = MsgResult.brk) := by
  refine ⟨?_, ?_, ?_, ?_⟩
  · intro s i hw
    refine ⟨by simp [close, hw], fun hal => ?_⟩
    simp only [close, hw] at hal
    exact (boolGetD_set s.threads i i hal).1 rfl
  · intro s hw
    simp [close, hw]
  · intro s
    cases hw : s.watcher_thread with
    | none =>
      have h1 : close s = s := by simp [close, hw]
      rw [h1]
      exact h1
    | some i =>
      have h1 : close s = ⟨s.handlers_dict, s.threads.set i false, none⟩ := by
        simp [close, hw]
      rw [h1]
      rfl
  · intro dict store raises
    rfl

/-- Witness for C7 at a watcher with one live thread. -/
theorem c7_close_idempotent_witness :
    (sC4.watcher_thread = some 0 ∧ (close sC4).watcher_thread = none ∧
      ¬ threadAlive (close sC4) 0) ∧
    (initialWatcher.watcher_thread = none ∧
      close initialWatcher = initialWatcher) :=
  ⟨⟨rfl, (c7_close_idempotent.1 sC4 0 rfl).1,
      (c7_close_idempotent.1 sC4 0 rfl).2⟩,
    ⟨rfl, c7_close_idempotent.2.1 initialWatcher rfl⟩⟩

/-! ## Dead listener thread (claim C10) -/

/-- One non-`close` step from a state whose handle thread is dead: the handle
and thread population are preserved, nothing is delivered, no call raises. -/
theorem deadStep (s : PostgresEventWatcher) (i : Nat) (op : WatcherOp)
    (h1 : s.watcher_thread = some i) (h2 : ∀ j, ¬ threadAlive s j)
    (h3 : op.isClose = false) :
    (stepOp s op).1.watcher_thread = some i ∧
    (∀ j, ¬ threadAlive (stepOp s op).1 j) ∧
    (stepOp s op).1.threads.length = s.threads.length ∧
    (stepOp s op).2.1 = [] ∧ (stepOp s op).2.2 = false := by
  cases op with
  | watch r c cb tm sig =>
    have hst : stepOp s (WatcherOp.watch r c cb tm sig) =
        (⟨registryAppend s.handlers_dict r ⟨c + 1, cb⟩, s.threads, some i⟩,
          [], false) := by
      simp only [stepOp, watch_run_some s i h1]
    rw [hst]
    exact ⟨rfl, h2, rfl, rfl, rfl⟩
  | unwatch r cb =>
    exact ⟨h1, h2, rfl, rfl, rfl⟩
  | close => exact absurd h3 (by simp [WatcherOp.isClose])
  | crash =>
    have hst : stepOp s WatcherOp.crash =
        (⟨s.handlers_dict, s.threads.set i false, some i⟩, [], false) := by
      simp only [stepOp, h1]
    rw [hst]
    refine ⟨rfl, fun j hj => ?_, by simp, rfl, rfl⟩
    exact h2 j (boolGetD_set s.threads i j hj).2
  | notify store payload raises =>
    have hal : s.threads.getD i false = false := by
      cases hb : s.threads.getD i false
      · rfl
      · exact absurd hb (h2 i)
    have hcond : ¬ (s.threads.getD i false = true) := by
      rw [hal]
      exact fun hb => Bool.noConfusion hb
    have hst : stepOp s (WatcherOp.notify store payload raises) =
        (s, [], false) := by
      simp only [stepOp, h1, if_neg hcond]
    rw [hst]
    exact ⟨h1, h2, rfl, rfl, rfl⟩

/-- Any non-`close` step preserves a set thread handle. -/
theorem stepOp_handle (s : PostgresEventWatcher) (op : WatcherOp) (i : Nat)
    (h3 : op.isClose = false) (h1 : s.watcher_thread = some i) :
    (stepOp s op).1.watcher_thread = some i := by
  cases op with
  | watch r c cb tm sig => simp only [stepOp, watch_run_some s i h1]
  | unwatch r cb => exact h1
  | close => exact absurd h3 (by simp [WatcherOp.isClose])
  | crash => simp only [stepOp, h1]
  | notify store payload raises =>
    simp only [stepOp, h1]
    by_cases hal : s.threads.getD i false = true
    · rw [if_pos hal]
      cases hpm : processMessage s.handlers_dict store raises false payload
        with
      | cont inv lg => simp [hpm, h1]
      | brk => simp [hpm, h1]
      | crash => simp [hpm]
    · rw [if_neg hal]
      exact h1

/-- From a dead-listener state, any `close`-free run of operations keeps the
handle, spawns no thread, revives nothing, delivers nothing, and never makes
an API call raise. -/
theorem deadRun (ops : List WatcherOp) :
    ∀ (s : PostgresEventWatcher) (i : Nat),
    s.watcher_thread = some i → (∀ j, ¬ threadAlive s j) →
    noCloseOps ops = true →
    (runOps s ops).1.watcher_thread = some i ∧
    (∀ j, ¬ threadAlive (runOps s ops).1 j) ∧
    (runOps s ops).1.threads.length = s.threads.length ∧
    (runOps s ops).2.1 = [] ∧
    (∀ b ∈ (runOps s ops).2.2, b = false) := by
  induction ops with
  | nil =>
    intro s i h1 h2 _
    exact ⟨h1, h2, rfl, rfl, by intro b hb; cases hb⟩
  | cons op t ih =>
    intro s i h1 h2 hnc
    have hnc' := hnc
    simp only [noCloseOps, List.all_cons, Bool.and_eq_true,
      Bool.not_eq_true'] at hnc'
    have hd := deadStep s i op h1 h2 hnc'.1
    have hr := ih (stepOp s op).1 i hd.1 hd.2.1 hnc'.2
    refine ⟨hr.1, hr.2.1, hr.2.2.1.trans hd.2.2.1, ?_, ?_⟩
    · show (stepOp s op).2.1 ++ (runOps (stepOp s op).1 t).2.1 = []
      rw [hd.2.2.2.1, hr.2.2.2.1]
      rfl
    · intro b hb
      rcases List.mem_cons.mp hb with hb | hb
      · rw [hb]
        exact hd.2.2.2.2
      · exact hr.2.2.2.2 b hb

/-- Claim C10: a listener thread is spawned only when the handle is unset and
only `close` unsets the handle.  So once the listener thread has died for any
reason other than `close` (uncaught exception during dispatch), every further
`watch_run` still registers and returns success without spawning a
replacement, and — since only a live listener thread dispatches — those
subscribers receive nothing until a `close` clears the handle (after which a
`watch_run` spawns again, by C4's part proved over `watch_run_none`). -/
theorem c10_dead_listener_not_replaced :
    (∀ (s : PostgresEventWatcher) (i : Nat) (r : RunId) (c : Int)
        (cb tm : Nat) (sig : Option Nat), s.watcher_thread = some i →
      stepOp s (WatcherOp.watch r c cb tm sig) =
        (⟨registryAppend s.handlers_dict r ⟨c + 1, cb⟩, s.threads, some i⟩,
          [], false)) ∧
    (∀ (s : PostgresEventWatcher) (op : WatcherOp) (i : Nat),
      op.isClose = false → s.watcher_thread = some i →
      (stepOp s op).1.watcher_thread = some i) ∧
    (∀ (ops : List WatcherOp) (s : PostgresEventWatcher) (i : Nat),
      s.watcher_thread = some i → (∀ j, ¬ threadAlive s j) →
      noCloseOps ops = true →
      (runOps s ops).1.watcher_thread = some i ∧
      (∀ j, ¬ threadAlive (runOps s ops).1 j) ∧
      (runOps s ops).1.threads.length = s.threads.length ∧
      (runOps s ops).2.1 = [] ∧
      (∀ b ∈ (runOps s ops).2.2, b = false)) ∧
    (∀ (s : PostgresEventWatcher) (i : Nat), s.watcher_thread = some i →
      (close s).watcher_thread = none) := by
  refine ⟨?_, ?_, ?_, ?_⟩
  · intro s i r c cb tm sig h1
    simp only [stepOp, watch_run_some s i h1]
  · intro s op i h3 h1
    exact stepOp_handle s op i h3 h1
  · intro ops s i h1 h2 hnc
    exact deadRun ops s i h1 h2 hnc
  · intro s i hw
    simp [close, hw]

/-- A watcher whose sole thread has died with the handle still set. -/
def sDead : PostgresEventWatcher := ⟨[], [false], some 0⟩

theorem sDead_not_alive : ∀ j, ¬ threadAlive sDead j := by
  intro j
  cases j with
  | zero => exact fun hj => Bool.noConfusion hj
  | succ j' =>
    intro hj
    have hout : ([false] : List Bool).getD (j' + 1) false = false :=
      boolGetD_out [false] (j' + 1) (Nat.succ_le_succ (Nat.zero_le j'))
    have hj' : ([false] : List Bool).getD (j' + 1) false = true := hj
    rw [hout] at hj'
    exact Bool.noConfusion hj'

def opsDead : List WatcherOp :=
  [WatcherOp.unwatch [114] 7, WatcherOp.crash,
    WatcherOp.watch [114] 1 8 15 none]

/-- Witness for C10 at a dead-listener watcher and a concrete close-free
operation sequence. -/
theorem c10_dead_listener_not_replaced_witness :
    (sDead.watcher_thread = some 0 ∧
      stepOp sDead (WatcherOp.watch [114] 1 8 15 none) =
        (⟨registryAppend sDead.handlers_dict [114] ⟨(1 : Int) + 1, 8⟩,
          sDead.threads, some 0⟩, [], false)) ∧
    ((WatcherOp.crash).isClose = false ∧
      (stepOp sDead WatcherOp.crash).1.watcher_thread = some 0) ∧
    (noCloseOps opsDead = true ∧
      (runOps sDead opsDead).1.watcher_thread = some 0 ∧
      (runOps sDead opsDead).2.1 = []) ∧
    (close sDead).watcher_thread = none :=
  ⟨⟨rfl, c10_dead_listener_not_replaced.1 sDead 0 [114] 1 8 15 none rfl⟩,
    ⟨rfl, c10_dead_listener_not_replaced.2.1 sDead WatcherOp.crash 0 rfl
      rfl⟩,
    ⟨by decide,
      (c10_dead_listener_not_replaced.2.2.1 opsDead sDead 0 rfl
        sDead_not_alive (by decide)).1,
      (c10_dead_listener_not_replaced.2.2.1 opsDead sDead 0 rfl
        sDead_not_alive (by decide)).2.2.2.1⟩,
    c10_dead_listener_not_replaced.2.2.2 sDead 0 rfl⟩

/-! ## Claim C1: the delivery cursor is off by one (code bug)

`watch_run` stores `CallbackAfterCursor(start_cursor + 1, callback)`
(line 352) while `watcher_thread` dispatches on the strict test
`callback_with_cursor.start_cursor < index` (line 298).  Together these
deliver only events with `id > start_cursor + 1`, silently skipping the
event `start_cursor + 1`.  The `CallbackAfterCursor` docstring in the
repository ("Only process EventLogEntrys with an id >= start_cursor", i.e. a
non-strict test against the stored cursor) and the specification (deliver
iff `e.id > c`; scenario: after `watch("r1", start_cursor=1, cb)` event id 2
is delivered) both require the event `start_cursor + 1` to be delivered. -/

/-- The run id `"r1"` as code points. -/
def r1 : RunId := [114, 49]

/-- A store holding committed events with ids 1, 2 and 3. -/
def storeC1 : Nat → Bool := fun n => decide (1 ≤ n) && decide (n ≤ 3)

/-- NOTIFY payload `"r1_2"`. -/
def payloadR1id2 : List Nat := [114, 49, 95, 50]

/-- NOTIFY payload `"r1_3"`. -/
def payloadR1id3 : List Nat := [114, 49, 95, 51]

/-- Claim C1 (code bug, evaluation at the failing input): after
`watch("r1", start_cursor = 1, cb = 7)` on a fresh watcher, dispatching the
notification for event id 2 invokes nothing — although `2 > 1`, so the spec
and the `CallbackAfterCursor` contract require `(7, 2)` — while the
notification for event id 3 is delivered.  The subscriber therefore never
sees event `start_cursor + 1`. -/
theorem c1_cursor_off_by_one :
    (runOps initialWatcher
        [WatcherOp.watch r1 1 7 15 (some 0),
          WatcherOp.notify storeC1 (some payloadR1id2) noRaise]).2.1 = [] ∧
    (runOps initialWatcher
        [WatcherOp.watch r1 1 7 15 (some 0),
          WatcherOp.notify storeC1 (some payloadR1id3) noRaise]).2.1 =
      [(7, 3)] := by
  exact ⟨by decide, by decide⟩

/-! ## Claim C2: a failed point fetch kills the loop (corrected) -/

/-- Registry with subscriber 7 on `"r1"` watching from cursor 0. -/
def dC2 : Registry := [([114, 49], [⟨0, 7⟩])]

/-- Store containing only event id 2 (id 9 has no row). -/
def storeC2 : Nat → Bool := fun n => n == 2

/-- NOTIFY payload `"r1_9"`. -/
def payloadR1id9 : List Nat := [114, 49, 95, 57]

/-- Counterexample to claim C2 as stated: a notification for the absent id 9
does not get logged-and-dropped with the loop continuing — the loop dies
(`deserialize_as(None, ...)` raises uncaught), delivering nothing, and the
following message `"r1_2"`, which on its own would deliver `(7, 2)`, is
never processed. -/
theorem c2_lookup_failure_counterexample :
    watcherLoop dC2 storeC2 noRaise [some payloadR1id9, some payloadR1id2] =
      ([], LoopStatus.crashed) ∧
    watcherLoop dC2 storeC2 noRaise [some payloadR1id2] =
      ([(7, 2)], LoopStatus.running) := by
  exact ⟨by decide, by decide⟩

/-- Amended claim C2: if the listener loop receives a notification whose
event id is not found by the point fetch (for a run that has subscribers),
`cursor_res.scalar()` is `None`, `deserialize_as` raises, and the exception
propagates uncaught: the message is not dispatched, nothing is logged by the
loop, the loop terminates, and no subsequent message is processed. -/
theorem c2_lookup_failure_kills_loop (dict : Registry) (store : Nat → Bool)
    (raises : Nat → Nat → Bool) (run_id : RunId) (istr : List Nat)
    (index : Nat) (rest : List (Option (List Nat)))
    (h95 : 95 ∉ run_id) (h95i : 95 ∉ istr)
    (hlk : (dictLookup dict run_id).isNone = false)
    (hint : pyIntOfChars istr = some index)
    (hst : store index = false) :
    processMessage dict store raises false (some (run_id ++ 95 :: istr)) =
      MsgResult.crash ∧
    watcherLoop dict store raises (some (run_id ++ 95 :: istr) :: rest) =
      ([], LoopStatus.crashed) := by
  have hsp : splitOn95 (run_id ++ 95 :: istr) = [run_id, istr] := by
    rw [splitOn95_append run_id istr h95, splitOn95_no_sep istr h95i]
  have hpm : processMessage dict store raises false
      (some (run_id ++ 95 :: istr)) = MsgResult.crash := by
    simp [processMessage, hsp, hlk, hint, hst]
  exact ⟨hpm, by simp [watcherLoop, hpm]⟩

/-- Witness for the amended C2 at the concrete failing input
(`"r1_9"` notified, id 9 absent, `"r1_2"` pending behind it). -/
theorem c2_lookup_failure_kills_loop_witness :
    ((95 : Nat) ∉ ([114, 49] : List Nat) ∧
      (dictLookup dC2 [114, 49]).isNone = false ∧
      pyIntOfChars [57] = some 9 ∧ storeC2 9 = false) ∧
    processMessage dC2 storeC2 noRaise false
        (some ([114, 49] ++ 95 :: [57])) = MsgResult.crash ∧
    watcherLoop dC2 storeC2 noRaise
        (some ([114, 49] ++ 95 :: [57]) :: [some payloadR1id2]) =
      ([], LoopStatus.crashed) :=
  ⟨⟨by decide, by decide, by decide, by decide⟩,
    (c2_lookup_failure_kills_loop dC2 storeC2 noRaise [114, 49] [57] 9
      [some payloadR1id2] (by decide) (by decide) (by decide) (by decide)
      (by decide)).1,
    (c2_lookup_failure_kills_loop dC2 storeC2 noRaise [114, 49] [57] 9
      [some payloadR1id2] (by decide) (by decide) (by decide) (by decide)
      (by decide)).2⟩

/-! ## Asset index upsert (`store_asset_event`, lines 164-211)

The asset-key table keyed by the stringified asset key.  The column bundle
written for a row is computed by `_get_asset_entry_values` in the shared base
class (outside this file); `store_asset_event` passes it verbatim into the
`INSERT ... ON CONFLICT (asset_key) DO UPDATE SET`, so it is taken here as an
opaque argument.  The fields mirror the columns named in the source comments
(`last_materialization`, `last_run_id`, `last_materialization_timestamp`);
the upsert never reads or compares them against the existing row. -/

structure AssetEntryValues where
  last_materialization : Nat
  last_run_id : Option RunId
  last_materialization_timestamp : Int
deriving DecidableEq

/-- The slice of an `EventLogEntry` that `store_asset_event` inspects:
`event.is_dagster_event`, `event.dagster_event.asset_key`, and (never
consulted by the upsert) its timestamp. -/
structure EventRecord where
  is_dagster_event : Bool
  asset_key : Option RunId
  timestamp : Int
deriving DecidableEq

abbrev AssetKeyTable := List (RunId × AssetEntryValues)

/-- `insert(AssetKeyTable).values(asset_key=..., **values)
.on_conflict_do_update(index_elements=[asset_key], set_=dict(**values))`
(lines 200-211): insert a fresh row, or blindly overwrite the computed
columns of the row with the same `asset_key`. -/
def upsertAssetEntry (tbl : AssetKeyTable) (k : RunId)
    (v : AssetEntryValues) : AssetKeyTable :=
  dictSet tbl k v

/-- `store_asset_event` (lines 164-211): return early unless the event is a
dagster event carrying an asset key; otherwise upsert the computed values
under that key. -/
def store_asset_event (tbl : AssetKeyTable) (event : EventRecord)
    (values : AssetEntryValues) : AssetKeyTable :=
  if event.is_dagster_event = false then tbl
  else
    match event.asset_key with
    | none => tbl
    | some k => upsertAssetEntry tbl k values

/-- Claim C8: the asset upsert is an atomic insert-or-overwrite keyed by
`asset_key` with no merge logic: after two `store_asset_event` calls for the
same key, the values of the later-applied call are the ones read back —
whatever the two events' timestamps or ids were (both events and both value
bundles are arbitrary here) —, rows under other keys are untouched, and key
uniqueness (at most one row per `asset_key`) is preserved. -/
theorem c8_asset_upsert_last_writer_wins :
    (∀ (tbl : AssetKeyTable) (k : RunId) (e1 e2 : EventRecord)
        (v1 v2 : AssetEntryValues),
      e1.is_dagster_event = true → e2.is_dagster_event = true →
      e1.asset_key = some k → e2.asset_key = some k →
      dictLookup (store_asset_event (store_asset_event tbl e1 v1) e2 v2) k =
        some v2) ∧
    (∀ (tbl : AssetKeyTable) (e : EventRecord) (v : AssetEntryValues)
        (k k' : RunId), e.asset_key = some k → k' ≠ k →
      dictLookup (store_asset_event tbl e v) k' = dictLookup tbl k') ∧
    (∀ (tbl : AssetKeyTable) (e : EventRecord) (v : AssetEntryValues),
      keysNodup tbl → keysNodup (store_asset_event tbl e v)) := by
  refine ⟨?_, ?_, ?_⟩
  · intro tbl k e1 e2 v1 v2 h1 h2 hk1 hk2
    simp only [store_asset_event, h1, h2, hk1, hk2, Bool.true_eq_false,
      if_false, upsertAssetEntry]
    exact dictLookup_dictSet_self _ k v2
  · intro tbl e v k k' hk hne
    cases hb : e.is_dagster_event with
    | false => simp [store_asset_event, hb]
    | true =>
      simp only [store_asset_event, hb, hk, Bool.true_eq_false, if_false,
        upsertAssetEntry]
      exact dictLookup_dictSet_ne tbl k v k' hne
  · intro tbl e v hn
    cases hb : e.is_dagster_event with
    | false => simpa [store_asset_event, hb] using hn
    | true =>
      cases hk : e.asset_key with
      | none => simpa [store_asset_event, hb, hk] using hn
      | some k =>
        simp only [store_asset_event, hb, hk, Bool.true_eq_false, if_false,
          upsertAssetEntry]
        exact keysNodup_dictSet tbl k v hn

/-- An asset materialization event for key `"a"` with timestamp 10. -/
def evC8a : EventRecord := ⟨true, some [97], 10⟩

/-- A second event for key `"a"` with an EARLIER timestamp (5). -/
def evC8b : EventRecord := ⟨true, some [97], 5⟩

def avC8a : AssetEntryValues := ⟨1, some [114], 10⟩

def avC8b : AssetEntryValues := ⟨2, some [115], 5⟩

/-- Witness for C8: even though the second event's timestamp (5) is older
than the first's (10), the later-applied upsert's values are read back. -/
theorem c8_asset_upsert_last_writer_wins_witness :
    (evC8a.is_dagster_event = true ∧ evC8b.is_dagster_event = true ∧
      evC8a.asset_key = some [97] ∧ evC8b.asset_key = some [97] ∧
      dictLookup (store_asset_event (store_asset_event [] evC8a avC8a)
          evC8b avC8b) [97] = some avC8b) ∧
    (([98] : RunId) ≠ [97] ∧
      dictLookup (store_asset_event [([98], avC8a)] evC8a avC8b) [98] =
        dictLookup [([98], avC8a)] [98]) ∧
    (keysNodup ([([98], avC8a)] : AssetKeyTable) ∧
      keysNodup (store_asset_event [([98], avC8a)] evC8a avC8b)) :=
  ⟨⟨rfl, rfl, rfl, rfl,
      c8_asset_upsert_last_writer_wins.1 [] [97] evC8a evC8b avC8a avC8b
        rfl rfl rfl rfl⟩,
    ⟨by decide,
      c8_asset_upsert_last_writer_wins.2.1 [([98], avC8a)] evC8a avC8b [97]
        [98] rfl (by decide)⟩,
    ⟨by decide,
      c8_asset_upsert_last_writer_wins.2.2 [([98], avC8a)] evC8a avC8b
        (by decide)⟩⟩

end EventLog
